import Mathlib

/-!
Verification of the RHD2164 SPI driver (`src/c/rhd.c`) against its
natural-language specification.  The C code is shallowly embedded:
machine integers become `Nat` with explicit truncation (`% 2^16` for
`uint16_t` stores, `% 2^8` for `uint8_t` stores), the device struct
becomes a Lean structure, and the injected SPI read/write callback
(`rhd_rw_t`) becomes a state-passing function so that stateful fakes
(pipelined echoes, call counters, call loggers) can be expressed, just
as a C function pointer with internal state could be.
-/

/-! ## Bit codec (`rhd_duplicate_bits`, `rhd_unsplit_u16`) -/

/-- Embedding of `rhd_duplicate_bits` (rhd.c:171-178): each bit `i` of the
8-bit input is written to bits `2i` and `2i+1` of the result. -/
def rhd_duplicate_bits (val : Nat) : Nat :=
  (List.range 8).foldl
    (fun out i =>
      let tmp := ((val % 256) >>> i) &&& 1
      out ||| (((tmp <<< 1) ||| tmp) <<< (2 * i)))
    0

/-- Embedding of `rhd_unsplit_u16` (rhd.c:180-195): reconstructs the two
interleaved 8-bit streams of a 16-bit doubled word.  The C interleaves the
two accumulations in one loop over the same masks; the accumulators are
independent, so they are written as two folds over the same index range. -/
def rhd_unsplit_u16 (data : Nat) : Nat × Nat :=
  let shift_arr : List Nat := [0x1, 0x2, 0x4, 0x8, 0x10, 0x20, 0x40, 0x80]
  let dataa := (data % 65536) >>> 1
  let aa := (List.range 8).foldl
    (fun aa i => aa ||| ((dataa >>> i) &&& shift_arr.getD i 0)) 0
  let bb := (List.range 8).foldl
    (fun bb i => bb ||| (((data % 65536) >>> i) &&& shift_arr.getD i 0)) 0
  (aa, bb)

/-! ## Device state and transport (`rhd_device_t`, `rhd_rw_t`) -/

/-- Embedding of `rhd_device_t` (rhd.h:31-37).  The two 2-word scratch
buffers are unrolled into the four fields `tx0 tx1 rx0 rx1`; the 128-byte
sample buffer is a total map from index to byte (C out-of-bounds writes
are undefined behaviour; every verified run stays inside `[0,128)`). -/
structure rhd_device_t : Type where
  double_bits : Bool
  tx0 : Nat
  tx1 : Nat
  rx0 : Nat
  rx1 : Nat
  sample_buf : Nat → Nat

/-- Embedding of the injected transport `rhd_rw_t` (rhd.h:29): given its
private state, the transmit words, the current receive words and the word
count, it returns its new private state, the new receive-buffer contents
and an `int` status.  Passing the old receive words lets a fake choose to
leave part of the buffer untouched, exactly as a C callback given the
`rx_buf` pointer could. -/
def rhd_rw_t (σ : Type) : Type :=
  σ → Nat × Nat → Nat × Nat → Nat → σ × (Nat × Nat) × Int

/-- One `dev->rw(dev->tx_buf, dev->rx_buf, len)` call: the receive buffer
is overwritten with what the transport wrote (truncated to `uint16_t`). -/
def callRw {σ : Type} (rw : rhd_rw_t σ) (s : σ) (dev : rhd_device_t) (len : Nat) :
    σ × rhd_device_t × Int :=
  let r := rw s (dev.tx0, dev.tx1) (dev.rx0, dev.rx1) len
  (r.1, { dev with rx0 := r.2.1.1 % 65536, rx1 := r.2.1.2 % 65536 }, r.2.2)

/-- Embedding of `rhd_send_raw` (rhd.c:24-31): stores `val` in `tx_buf[0]`
and exchanges 2 words in doubled mode, 1 word otherwise. -/
def rhd_send_raw {σ : Type} (rw : rhd_rw_t σ) (s : σ) (dev : rhd_device_t)
    (val : Nat) : σ × rhd_device_t × Int :=
  let dev := { dev with tx0 := val % 65536 }
  if dev.double_bits then callRw rw s dev 2 else callRw rw s dev 1

/-- The plain-mode command word `(reg << 8) | (val & 0xFF)` stored into the
`uint16_t` `tx_buf[0]` (rhd.c:40). -/
def rhd_plain_word (reg val : Nat) : Nat :=
  (((reg % 65536) <<< 8) ||| (val &&& 0xFF)) % 65536

/-- Embedding of `rhd_send` (rhd.c:33-45). -/
def rhd_send {σ : Type} (rw : rhd_rw_t σ) (s : σ) (dev : rhd_device_t)
    (reg val : Nat) : σ × rhd_device_t × Int :=
  if dev.double_bits then
    let dev := { dev with
      tx0 := rhd_duplicate_bits reg, tx1 := rhd_duplicate_bits val }
    callRw rw s dev 2
  else
    let dev := { dev with tx0 := rhd_plain_word reg val }
    callRw rw s dev 1

/-- Embedding of `rhd_r` (rhd.c:47-51): forces the top two command bits of
the register byte to `11` and delegates to `rhd_send`. -/
def rhd_r {σ : Type} (rw : rhd_rw_t σ) (s : σ) (dev : rhd_device_t)
    (reg val : Nat) : σ × rhd_device_t × Int :=
  rhd_send rw s dev ((reg &&& 0x3F) ||| 0xC0) val

/-- Embedding of `rhd_w` (rhd.c:53-57): forces the top two command bits of
the register byte to `10` and delegates to `rhd_send`. -/
def rhd_w {σ : Type} (rw : rhd_rw_t σ) (s : σ) (dev : rhd_device_t)
    (reg val : Nat) : σ × rhd_device_t × Int :=
  rhd_send rw s dev ((reg &&& 0x3F) ||| 0x80) val

/-- Embedding of `rhd_get_val_from_rx` (rhd.c:161-169). -/
def rhd_get_val_from_rx (dev : rhd_device_t) : Nat :=
  if dev.double_bits then (rhd_unsplit_u16 dev.rx1).1
  else dev.rx0 &&& 0xFF

/-- A single `uint8_t` store `sample_buf[i] = v`. -/
def setBuf (f : Nat → Nat) (i v : Nat) : Nat → Nat :=
  fun j => if j = i then v % 256 else f j

/-- Embedding of `rhd_get_samples_from_rx` (rhd.c:142-159), including the
post-increment bookkeeping: the low/high slot pairs are written, then the
least-significant bit of each pair's second byte is forced to 1. -/
def rhd_get_samples_from_rx (dev : rhd_device_t) (ch : Nat) : rhd_device_t :=
  let ch_l := (ch % 65536) * 2
  let ch_h := ((ch % 65536) + 32) * 2
  let buf := dev.sample_buf
  let buf :=
    if dev.double_bits then
      let u0 := rhd_unsplit_u16 dev.rx0
      let u1 := rhd_unsplit_u16 dev.rx1
      let buf := setBuf buf ch_l u0.1
      let buf := setBuf buf ch_h u0.2
      let buf := setBuf buf (ch_l + 1) u1.1
      setBuf buf (ch_h + 1) u1.2
    else
      let buf := setBuf buf ch_l ((dev.rx0 >>> 8) &&& 0xFF)
      let buf := setBuf buf (ch_l + 1) (dev.rx0 &&& 0xFF)
      let buf := setBuf buf ch_h ((dev.rx1 >>> 8) &&& 0xFF)
      setBuf buf (ch_h + 1) (dev.rx1 &&& 0xFF)
  let buf := setBuf buf (ch_l + 1) (buf (ch_l + 1) ||| 1)
  let buf := setBuf buf (ch_h + 1) (buf (ch_h + 1) ||| 1)
  { dev with sample_buf := buf }

/-! ## Channel command tables and the sampler -/

/-- The doubled per-channel ADC command table (rhd.c:10-13). -/
def RHD_ADC_CH_CMD_DOUBLE : List Nat :=
  [0x00,  0x03,  0x0C,  0x0F,  0x30,  0x33,  0x3C,  0x3F,  0xC0,  0xC3,  0xCC,
   0xCF,  0xF0,  0xF3,  0xFC,  0xFF,  0x300, 0x303, 0x30C, 0x30F, 0x330, 0x333,
   0x33C, 0x33F, 0x3C0, 0x3C3, 0x3CC, 0x3CF, 0x3F0, 0x3F3, 0x3FC, 0x3FF]

/-- The plain per-channel ADC command table (rhd.c:14-16). -/
def RHD_ADC_CH_CMD : List Nat :=
  [0,  1,  2,  3,  4,  5,  6,  7,  8,  9,  10,
   11, 12, 13, 14, 15, 16, 17, 18, 19, 20, 21,
   22, 23, 24, 25, 26, 27, 28, 29, 30, 31]

/-- Embedding of `rhd_sample` (rhd.c:112-116). -/
def rhd_sample {σ : Type} (rw : rhd_rw_t σ) (s : σ) (dev : rhd_device_t)
    (ch : Nat) : σ × rhd_device_t × Int :=
  let r := rhd_send rw s dev (RHD_ADC_CH_CMD.getD (ch % 256) 0) 0
  (r.1, rhd_get_samples_from_rx r.2.1 (ch % 256), r.2.2)

/-- One iteration of `rhd_sample_all`'s loop (rhd.c:127-137) at virtual
index `i`: issue the command for channel `i` (channel 0's command once
`i` reaches 32) and decode the reply into logical channel `i - 2`. -/
def rhd_sample_step {σ : Type} (rw : rhd_rw_t σ) (base : List Nat)
    (p : σ × rhd_device_t) (i : Nat) : σ × rhd_device_t :=
  let cmd := if i < 32 then base.getD i 0 else base.getD 0 0
  let r := rhd_send_raw rw p.1 p.2 cmd
  (r.1, rhd_get_samples_from_rx r.2.1 (i - 2))

/-- Embedding of `rhd_sample_all` (rhd.c:118-140): primes the pipe with
channel 1's command, loops the virtual indices 2..33, then forces channel
0 bank-A's flag bit to 0.  The C function returns `void`: every transport
status, the priming call's included, is discarded. -/
def rhd_sample_all {σ : Type} (rw : rhd_rw_t σ) (s : σ) (dev : rhd_device_t) :
    σ × rhd_device_t :=
  let base := if dev.double_bits then RHD_ADC_CH_CMD_DOUBLE else RHD_ADC_CH_CMD
  let r := rhd_send_raw rw s dev (base.getD 1 0)
  let p := (List.range' 2 32).foldl (rhd_sample_step rw base) (r.1, r.2.1)
  (p.1, { p.2 with
    sample_buf := setBuf p.2.sample_buf 1 (p.2.sample_buf 1 &&& 0xFE) })

/-! ## Setup and calibration -/

/-- `CHIP_ID` member of `rhd_reg_t` (rhd.h:71). -/
def CHIP_ID : Nat := 63

/-- The fixed `val_buf` initialization table of `rhd_setup` (rhd.c:65-69). -/
def RHD_SETUP_VALS : List Nat :=
  [0b11011110, 0b00100000, 0b00101000, 0b00000010, 0b11000111, 0,
   0,          0,          6,          9,          2,          11,
   54,         0,          0xFF,       0xFF,       0xFF,       0xFF,
   0xFF,       0xFF,       0xFF,       0xFF]

/-- One iteration of `rhd_setup`'s loop (rhd.c:76-90): write register `i`,
and for `i >= 2` compare the echoed read-back against the value intended
for register `i - 2`, latching `-1` on mismatch. -/
def rhd_setup_step {σ : Type} (rw : rhd_rw_t σ) (p : σ × rhd_device_t × Int)
    (i : Nat) : σ × rhd_device_t × Int :=
  let w := rhd_w rw p.1 p.2.1 i (RHD_SETUP_VALS.getD i 0)
  if i < 2 then (w.1, w.2.1, p.2.2)
  else if rhd_get_val_from_rx w.2.1 ≠ RHD_SETUP_VALS.getD (i - 2) 0 then
    (w.1, w.2.1, -1)
  else (w.1, w.2.1, p.2.2)

/-- The state of `rhd_setup` after the two dummy reads and the first `n`
iterations of its write loop; `rhd_setup` itself is the case `n = 22`. -/
def rhd_setup_upto {σ : Type} (rw : rhd_rw_t σ) (s : σ) (dev : rhd_device_t)
    (n : Nat) : σ × rhd_device_t × Int :=
  let d1 := rhd_r rw s dev CHIP_ID 0
  let d2 := rhd_r rw d1.1 d1.2.1 CHIP_ID 0
  (List.range n).foldl (rhd_setup_step rw) (d2.1, d2.2.1, 0)

/-- Embedding of `rhd_setup` (rhd.c:59-93). -/
def rhd_setup {σ : Type} (rw : rhd_rw_t σ) (s : σ) (dev : rhd_device_t) :
    σ × rhd_device_t × Int :=
  rhd_setup_upto rw s dev 22

/-- Embedding of `rhd_calib` (rhd.c:95-105): sends the calibration command
`0b01010101`, issues 9 dummy `CHIP_ID` reads, and returns the status of
the calibration command itself. -/
def rhd_calib {σ : Type} (rw : rhd_rw_t σ) (s : σ) (dev : rhd_device_t) :
    σ × rhd_device_t × Int :=
  let r := rhd_send rw s dev 0b01010101 0
  let p := (List.range 9).foldl
    (fun (p : σ × rhd_device_t) _ =>
      let d := rhd_r rw p.1 p.2 CHIP_ID 0
      (d.1, d.2.1))
    (r.1, r.2.1)
  (p.1, p.2, r.2.2)

/-! ## Deterministic fake transports used by the test-style properties -/

/-- A transport call record: the transmitted word pair and the word count. -/
abbrev SpiCall : Type := (Nat × Nat) × Nat

/-- Wraps a transport so that every call appends its transmit words and
word count to a log carried in the transport state. -/
def withLog {σ : Type} (rw : rhd_rw_t σ) : rhd_rw_t (σ × List SpiCall) :=
  fun p tx rx len =>
    let r := rw p.1 tx rx len
    ((r.1, p.2 ++ [(tx, len)]), r.2.1, r.2.2)

/-- Fake transport that fills the receive buffer with zero words and
returns status 0. -/
def nullRw : rhd_rw_t Unit :=
  fun _ _ _ _ => ((), (0, 0), 0)

/-- The test suite's fake transport (rhd_test.cpp): always fills the
receive buffer with the words `0xAAAA, 0x5555` and reports success by
returning the word count. -/
def fixedRw : rhd_rw_t Unit :=
  fun _ _ _ len => ((), (0xAAAA, 0x5555), Int.ofNat len)

/-- Fake transport echoing the transmitted word into the high byte of the
first receive word, making the command issued by each exchange visible in
the decoded sample bytes. -/
def echoRw : rhd_rw_t Unit :=
  fun _ tx _ _ => ((), (tx.1 <<< 8, 0), 0)

/-- Fake transport whose status is the index of the call (0-based). -/
def counterRw : rhd_rw_t Nat :=
  fun n _ rx _ => (n + 1, rx, Int.ofNat n)

/-- Fake transport realizing the chip's two-deep command pipeline: the
first receive word of each exchange is the transmit word from two calls
ago. -/
def pipeRw : rhd_rw_t (Nat × Nat) :=
  fun q tx _ _ => ((q.2, tx.1), (q.1, 0), 1)

/-- Fixed-reply transport reporting status 7 on every exchange. -/
def statusRw7 : rhd_rw_t Unit :=
  fun _ _ _ _ => ((), (0xAAAA, 0x5555), 7)

/-- Fixed-reply transport reporting status -1 on every exchange. -/
def statusRwNeg : rhd_rw_t Unit :=
  fun _ _ _ _ => ((), (0xAAAA, 0x5555), -1)

/-- Fixed-reply transport reporting status 5 on every exchange. -/
def statusRw5 : rhd_rw_t Unit :=
  fun _ _ _ _ => ((), (0xAAAA, 0x5555), 5)

/-- Fixed-reply transport reporting status 6 on every exchange. -/
def statusRw6 : rhd_rw_t Unit :=
  fun _ _ _ _ => ((), (0xAAAA, 0x5555), 6)

/-- A freshly zeroed plain-mode device session. -/
def dev0 : rhd_device_t :=
  { double_bits := false, tx0 := 0, tx1 := 0, rx0 := 0, rx1 := 0,
    sample_buf := fun _ => 0 }

/-- A freshly zeroed doubled-mode device session. -/
def dev0d : rhd_device_t :=
  { dev0 with double_bits := true }

example : rhd_duplicate_bits 0xAA = 0xCCCC := by decide
example : rhd_duplicate_bits 0x55 = 0x3333 := by decide
example : (rhd_unsplit_u16 0xCCCC).1 = 0xAA := by decide

/-! ## Claim theorems -/

set_option maxRecDepth 4000 in
/-- C2: for every 8-bit value `x`, `rhd_unsplit_u16` applied to
`rhd_duplicate_bits x` yields `x` back in the first (`a`) output stream. -/
theorem rhd_codec_roundtrip (x : Nat) (h : x < 256) :
    (rhd_unsplit_u16 (rhd_duplicate_bits x)).1 = x := by
  revert x
  decide

/-- Witness for C2 at the concrete input `0xAA`. -/
theorem rhd_codec_roundtrip_witness :
    (rhd_unsplit_u16 (rhd_duplicate_bits 0xAA)).1 = 0xAA :=
  rhd_codec_roundtrip 0xAA (by decide)

/-- C4: in plain mode `rhd_send` packs `reg<<8|val` into one transmit word
and performs a single 1-word exchange whose status it returns unmodified;
in doubled mode it transmits the two independently bit-doubled words in a
single 2-word exchange, again returning the transport status unmodified.
Concretely, `send(0xAA, 0x55)` transmits `0xAA55` (plain) and
`0xCCCC, 0x3333` (doubled). -/
theorem rhd_send_spec :
    (∀ (σ : Type) (rw : rhd_rw_t σ) (s : σ) (l : List SpiCall)
        (dev : rhd_device_t) (reg val : Nat), dev.double_bits = false →
      (rhd_send (withLog rw) (s, l) dev reg val).1.2 =
          l ++ [((rhd_plain_word reg val, dev.tx1), 1)] ∧
      (rhd_send rw s dev reg val).2.2 =
          (rw s (rhd_plain_word reg val, dev.tx1) (dev.rx0, dev.rx1) 1).2.2) ∧
    (∀ (σ : Type) (rw : rhd_rw_t σ) (s : σ) (l : List SpiCall)
        (dev : rhd_device_t) (reg val : Nat), dev.double_bits = true →
      (rhd_send (withLog rw) (s, l) dev reg val).1.2 =
          l ++ [((rhd_duplicate_bits reg, rhd_duplicate_bits val), 2)] ∧
      (rhd_send rw s dev reg val).2.2 =
          (rw s (rhd_duplicate_bits reg, rhd_duplicate_bits val)
            (dev.rx0, dev.rx1) 2).2.2) ∧
    (rhd_send (withLog nullRw) (((), [])) dev0 0xAA 0x55).1.2 =
        [((0xAA55, 0), 1)] ∧
    (rhd_send (withLog nullRw) (((), [])) dev0d 0xAA 0x55).1.2 =
        [((0xCCCC, 0x3333), 2)] := by
  refine ⟨?_, ?_, by decide, by decide⟩
  · intro σ rw s l dev reg val h
    constructor <;> simp [rhd_send, callRw, withLog, h]
  · intro σ rw s l dev reg val h
    constructor <;> simp [rhd_send, callRw, withLog, h]

/-- Witness for C4: the plain-mode part applied to the zeroed plain-mode
session, the null transport and the register/value pair `0xAA, 0x55`. -/
theorem rhd_send_spec_witness :
    (rhd_send (withLog nullRw) (((), [])) dev0 0xAA 0x55).1.2 =
        [] ++ [((rhd_plain_word 0xAA 0x55, dev0.tx1), 1)] :=
  (rhd_send_spec.1 Unit nullRw () [] dev0 0xAA 0x55 (by decide)).1

/-- C6: `rhd_r` overwrites the top two bits of the register byte with `11`
and `rhd_w` with `10`, each delegating to `rhd_send` (so each returns
`rhd_send`'s status); in plain mode, reading register `0x0F` transmits the
word `0xCF00` (high byte `0xCF`) and writing it transmits `0x8F00` (high
byte `0x8F`). -/
theorem rhd_r_w_spec :
    (∀ (σ : Type) (rw : rhd_rw_t σ) (s : σ) (dev : rhd_device_t)
        (reg val : Nat),
      rhd_r rw s dev reg val = rhd_send rw s dev ((reg &&& 0x3F) ||| 0xC0) val) ∧
    (∀ (σ : Type) (rw : rhd_rw_t σ) (s : σ) (dev : rhd_device_t)
        (reg val : Nat),
      rhd_w rw s dev reg val = rhd_send rw s dev ((reg &&& 0x3F) ||| 0x80) val) ∧
    (rhd_r (withLog nullRw) (((), [])) dev0 0x0F 0).1.2 = [((0xCF00, 0), 1)] ∧
    (rhd_w (withLog nullRw) (((), [])) dev0 0x0F 0).1.2 = [((0x8F00, 0), 1)] ∧
    (0xCF00 : Nat) >>> 8 = 0xCF ∧ (0x8F00 : Nat) >>> 8 = 0x8F :=
  ⟨fun _ _ _ _ _ _ => rfl, fun _ _ _ _ _ _ => rfl,
   by decide, by decide, by decide, by decide⟩

/-- C7: after `rhd_sample` on channel 10 in plain mode with the fixed
transport reply `0xAAAA, 0x5555`, the sample buffer holds `0xAA` at index
20, `0xAB` at index 21 (flag bit forced), and `0x55` at indices 84/85. -/
theorem rhd_sample_ch10_spec :
    (rhd_sample fixedRw () dev0 10).2.1.sample_buf 20 = 0xAA ∧
    (rhd_sample fixedRw () dev0 10).2.1.sample_buf 21 = 0xAB ∧
    (rhd_sample fixedRw () dev0 10).2.1.sample_buf 84 = 0x55 ∧
    (rhd_sample fixedRw () dev0 10).2.1.sample_buf 85 = 0x55 := by
  refine ⟨?_, ?_, ?_, ?_⟩ <;> decide

/-- C9: `rhd_calib`'s status is exactly the status of its own calibration
command exchange (`rhd_send` of the code `0b01010101`), not of any of the
9 dummy reads that follow: under the call-counting transport the result is
status 0 (the first call's), and the logged trace is the calibration word
`0x5500` followed by exactly 9 dummy `CHIP_ID` read words `0xFF00`. -/
theorem rhd_calib_spec :
    (∀ (σ : Type) (rw : rhd_rw_t σ) (s : σ) (dev : rhd_device_t),
      (rhd_calib rw s dev).2.2 = (rhd_send rw s dev 0b01010101 0).2.2) ∧
    (rhd_calib counterRw 0 dev0).2.2 = 0 ∧
    (rhd_calib (withLog nullRw) (((), [])) dev0).1.2 =
        ((0x5500, 0), 1) :: List.replicate 9 ((0xFF00, 0), 1) :=
  ⟨fun _ _ _ _ => rfl, by decide, by decide⟩

set_option maxRecDepth 8000 in
/-- C1: after one full plain-mode `rhd_sample_all` sweep with the fixed
transport reply `0xAAAA, 0x5555`, every even-indexed sample byte in
`[0,63]` is `0xAA` and every odd-indexed one is `0xAB`, except index 1
(channel 0's flag byte) which is `0xAA`; the logged transmit trace shows
channel 1's command as a primer followed by the commands for channels
2..31 and two re-issues of channel 0's command, and under an echoing
transport each step's reply is decoded into logical channel `i - 2`
(channels 30 and 31 receive the replies of the two channel-0 flushes). -/
theorem rhd_sample_all_plain_spec :
    (∀ j, j < 64 → (rhd_sample_all fixedRw () dev0).2.sample_buf j =
        if j % 2 = 0 then 0xAA else if j = 1 then 0xAA else 0xAB) ∧
    (rhd_sample_all (withLog fixedRw) (((), [])) dev0).1.2 =
        (List.range' 1 31).map (fun i => ((i, 0), 1)) ++
          [((0, 0), 1), ((0, 0), 1)] ∧
    (∀ c, c < 32 → (rhd_sample_all echoRw () dev0).2.sample_buf (2 * c) =
        if c < 30 then c + 2 else 0) := by
  refine ⟨by decide, by decide, by decide⟩

/-- Witness for C1 at concrete indices: the even byte 4 is `0xAA`, the odd
byte 5 is `0xAB`, byte 1 is `0xAA`, and decoded channel 0 carries channel
2's echoed command. -/
theorem rhd_sample_all_plain_spec_witness :
    (rhd_sample_all fixedRw () dev0).2.sample_buf 4 = 0xAA ∧
    (rhd_sample_all fixedRw () dev0).2.sample_buf 5 = 0xAB ∧
    (rhd_sample_all fixedRw () dev0).2.sample_buf 1 = 0xAA ∧
    (rhd_sample_all echoRw () dev0).2.sample_buf 0 = 2 :=
  ⟨rhd_sample_all_plain_spec.1 4 (by decide),
   by
    have h := rhd_sample_all_plain_spec.1 5 (by decide)
    simpa using h,
   by
    have h := rhd_sample_all_plain_spec.1 1 (by decide)
    simpa using h,
   by
    have h := rhd_sample_all_plain_spec.2.2 0 (by decide)
    simpa using h⟩

lemma setBuf_app (f : Nat → Nat) (i v j : Nat) :
    setBuf f i v j = if j = i then v % 256 else f j := rfl

set_option maxRecDepth 4000 in
lemma byte_or_one : ∀ y, y < 256 → ((y ||| 1) % 256) % 2 = 1 ∧ (y ||| 1) % 256 < 256 := by decide

set_option maxRecDepth 4000 in
lemma byte_mask_fe : ∀ y, y < 256 → ((y &&& 0xFE) % 256) % 2 = 0 := by decide

lemma rhd_send_raw_sample_buf {σ : Type} (rw : rhd_rw_t σ) (s : σ)
    (dev : rhd_device_t) (v : Nat) :
    (rhd_send_raw rw s dev v).2.1.sample_buf = dev.sample_buf := by
  unfold rhd_send_raw callRw
  dsimp only
  split <;> rfl

lemma gs_flag_l (dev : rhd_device_t) (ch : Nat) (h : ch < 65536) :
    (rhd_get_samples_from_rx dev ch).sample_buf (ch * 2 + 1) % 2 = 1 ∧
    (rhd_get_samples_from_rx dev ch).sample_buf (ch * 2 + 1) < 256 := by
  unfold rhd_get_samples_from_rx
  rw [Nat.mod_eq_of_lt h]
  cases hdb : dev.double_bits <;>
    refine ⟨?_, ?_⟩ <;>
      · simp only [hdb, Bool.false_eq_true, if_true, if_false, setBuf_app]
        split_ifs <;>
          first
            | omega
            | exact (byte_or_one _ (Nat.mod_lt _ (by omega))).1

lemma gs_flag_h (dev : rhd_device_t) (ch : Nat) (h : ch < 65536) :
    (rhd_get_samples_from_rx dev ch).sample_buf ((ch + 32) * 2 + 1) % 2 = 1 ∧
    (rhd_get_samples_from_rx dev ch).sample_buf ((ch + 32) * 2 + 1) < 256 := by
  unfold rhd_get_samples_from_rx
  rw [Nat.mod_eq_of_lt h]
  cases hdb : dev.double_bits <;>
    refine ⟨?_, ?_⟩ <;>
      · simp only [hdb, Bool.false_eq_true, if_true, if_false, setBuf_app]
        split_ifs <;>
          first
            | omega
            | exact (byte_or_one _ (Nat.mod_lt _ (by omega))).1

lemma gs_frame (dev : rhd_device_t) (ch : Nat) (h : ch < 65536) (j : Nat)
    (h1 : j ≠ ch * 2) (h2 : j ≠ ch * 2 + 1)
    (h3 : j ≠ (ch + 32) * 2) (h4 : j ≠ (ch + 32) * 2 + 1) :
    (rhd_get_samples_from_rx dev ch).sample_buf j = dev.sample_buf j := by
  unfold rhd_get_samples_from_rx
  rw [Nat.mod_eq_of_lt h]
  cases hdb : dev.double_bits <;>
    · simp only [hdb, Bool.false_eq_true, if_true, if_false, setBuf_app]
      split_ifs <;> omega

lemma sweep_flags {σ : Type} (rw : rhd_rw_t σ) (base : List Nat) :
    ∀ n, n ≤ 32 → ∀ p : σ × rhd_device_t, ∀ c, c < n →
      ((((List.range' 2 n).foldl (rhd_sample_step rw base) p).2.sample_buf
          (c * 2 + 1) % 2 = 1 ∧
        ((List.range' 2 n).foldl (rhd_sample_step rw base) p).2.sample_buf
          (c * 2 + 1) < 256) ∧
       (((List.range' 2 n).foldl (rhd_sample_step rw base) p).2.sample_buf
          ((c + 32) * 2 + 1) % 2 = 1 ∧
        ((List.range' 2 n).foldl (rhd_sample_step rw base) p).2.sample_buf
          ((c + 32) * 2 + 1) < 256)) := by
  intro n
  induction n with
  | zero => intro _ p c hc; omega
  | succ n ih =>
    intro hn p c hc
    rw [List.range'_concat, List.foldl_append]
    simp only [List.foldl_cons, List.foldl_nil, rhd_sample_step]
    have h2n : 2 + 1 * n - 2 = n := by omega
    rw [h2n]
    rcases Nat.lt_succ_iff_lt_or_eq.mp hc with hlt | rfl
    · rw [gs_frame _ n (by omega) (c * 2 + 1) (by omega) (by omega) (by omega)
          (by omega),
        gs_frame _ n (by omega) ((c + 32) * 2 + 1) (by omega) (by omega)
          (by omega) (by omega),
        rhd_send_raw_sample_buf]
      exact ih (by omega) p c hlt
    · exact ⟨gs_flag_l _ c (by omega), gs_flag_h _ c (by omega)⟩

lemma sweep_then_mask {σ : Type} (rw : rhd_rw_t σ) (base : List Nat)
    (p : σ × rhd_device_t) (j : Nat) (hj : j < 128) (hodd : j % 2 = 1) :
    setBuf ((List.range' 2 32).foldl (rhd_sample_step rw base) p).2.sample_buf 1
      (((List.range' 2 32).foldl (rhd_sample_step rw base) p).2.sample_buf 1 &&&
        0xFE) j &&& 1 =
      if j = 1 then 0 else 1 := by
  rw [setBuf_app, Nat.and_one_is_mod]
  by_cases h1 : j = 1
  · rw [if_pos h1, if_pos h1]
    have hb := ((sweep_flags rw base 32 (by omega) p 0 (by omega)).1).2
    simp only [Nat.zero_mul, Nat.zero_add] at hb
    exact byte_mask_fe _ hb
  · rw [if_neg h1, if_neg h1]
    by_cases h64 : j < 64
    · have hc : j = ((j - 1) / 2) * 2 + 1 := by omega
      rw [hc]
      exact ((sweep_flags rw base 32 (by omega) p ((j - 1) / 2) (by omega)).1).1
    · have hc : j = ((j - 65) / 2 + 32) * 2 + 1 := by omega
      rw [hc]
      exact ((sweep_flags rw base 32 (by omega) p ((j - 65) / 2) (by omega)).2).1

/-- C5: after `rhd_sample_all`, for any transport and any session, every
odd-indexed byte of the 128-byte sample buffer has least-significant bit
1, except index 1 (channel 0 bank A's flag byte) whose LSB is 0. -/
theorem rhd_sample_all_flag_invariant {σ : Type} (rw : rhd_rw_t σ) (s : σ)
    (dev : rhd_device_t) (j : Nat) (hj : j < 128) (hodd : j % 2 = 1) :
    (rhd_sample_all rw s dev).2.sample_buf j &&& 1 = if j = 1 then 0 else 1 := by
  unfold rhd_sample_all
  dsimp only
  exact sweep_then_mask rw _ _ j hj hodd

/-- Witness for C5: the flag bytes 21 and 1 of the concrete plain-mode
sweep of C1's fixed transport have least-significant bits 1 and 0. -/
theorem rhd_sample_all_flag_invariant_witness :
    (rhd_sample_all fixedRw () dev0).2.sample_buf 21 &&& 1 = 1 ∧
    (rhd_sample_all fixedRw () dev0).2.sample_buf 1 &&& 1 = 0 :=
  ⟨by
    have h := rhd_sample_all_flag_invariant fixedRw () dev0 21 (by decide)
      (by decide)
    simpa using h,
   by
    have h := rhd_sample_all_flag_invariant fixedRw () dev0 1 (by decide)
      (by decide)
    simpa using h⟩

/-- Two transports agree on everything a caller of `rhd_sample_all` can
observe except their status codes: same state evolution, same receive
words, on every call. -/
def rwAgree {σ : Type} (rw1 rw2 : rhd_rw_t σ) : Prop :=
  ∀ s tx rx len, (rw1 s tx rx len).1 = (rw2 s tx rx len).1 ∧
    (rw1 s tx rx len).2.1 = (rw2 s tx rx len).2.1

lemma send_raw_agree {σ : Type} (rw1 rw2 : rhd_rw_t σ) (h : rwAgree rw1 rw2)
    (s : σ) (dev : rhd_device_t) (v : Nat) :
    ((rhd_send_raw rw1 s dev v).1, (rhd_send_raw rw1 s dev v).2.1) =
      ((rhd_send_raw rw2 s dev v).1, (rhd_send_raw rw2 s dev v).2.1) := by
  unfold rhd_send_raw callRw
  dsimp only
  split
  · have hh := h s (v % 65536, dev.tx1) (dev.rx0, dev.rx1) 2
    rw [hh.1, hh.2]
  · have hh := h s (v % 65536, dev.tx1) (dev.rx0, dev.rx1) 1
    rw [hh.1, hh.2]

lemma rhd_sample_step_agree {σ : Type} (rw1 rw2 : rhd_rw_t σ)
    (h : rwAgree rw1 rw2) (b : List Nat) (p : σ × rhd_device_t) (i : Nat) :
    rhd_sample_step rw1 b p i = rhd_sample_step rw2 b p i := by
  unfold rhd_sample_step
  dsimp only
  have hsr := send_raw_agree rw1 rw2 h p.1 p.2
    (if i < 32 then b.getD i 0 else b.getD 0 0)
  have h1 := congrArg Prod.fst hsr
  have h2 := congrArg Prod.snd hsr
  dsimp only at h1 h2
  rw [h1, h2]

lemma foldl_step_agree {σ : Type} (rw1 rw2 : rhd_rw_t σ) (h : rwAgree rw1 rw2)
    (b : List Nat) :
    ∀ (l : List Nat) (p : σ × rhd_device_t),
      l.foldl (rhd_sample_step rw1 b) p = l.foldl (rhd_sample_step rw2 b) p := by
  intro l
  induction l with
  | nil => intro p; rfl
  | cons i t ih =>
    intro p
    rw [List.foldl_cons, List.foldl_cons, rhd_sample_step_agree rw1 rw2 h, ih]

/-- C8 (amended): `rhd_sample_all` discards the transport status of every
exchange, the initial priming exchange's included; it returns `void`, and
its entire result is independent of all status codes. -/
theorem rhd_sample_all_discards_statuses {σ : Type} (rw1 rw2 : rhd_rw_t σ)
    (h : rwAgree rw1 rw2) (s : σ) (dev : rhd_device_t) :
    rhd_sample_all rw1 s dev = rhd_sample_all rw2 s dev := by
  unfold rhd_sample_all
  dsimp only
  generalize (if dev.double_bits = true then RHD_ADC_CH_CMD_DOUBLE
    else RHD_ADC_CH_CMD) = b
  have hsr := send_raw_agree rw1 rw2 h s dev (b.getD 1 0)
  have h1 := congrArg Prod.fst hsr
  have h2 := congrArg Prod.snd hsr
  dsimp only at h1 h2
  rw [h1, h2, foldl_step_agree rw1 rw2 h b]

set_option maxRecDepth 20000 in
/-- C8 (counterexample to the claim as stated): two fixed-reply transports
whose statuses differ on every exchange, the initial priming exchange's
included (7 versus -1), drive `rhd_sample_all` to identical results, so
the initial exchange's status is not visible to the caller; indeed the
embedded `rhd_sample_all`, like the C original which returns `void`,
yields no status at all. -/
theorem rhd_sample_all_status_invisible :
    rhd_sample_all statusRw7 () dev0 = rhd_sample_all statusRwNeg () dev0 := rfl

/-- Witness for the amended C8 at the concrete stateless transports with
statuses 5 and 6. -/
theorem rhd_sample_all_discards_statuses_witness :
    rhd_sample_all statusRw5 () dev0 = rhd_sample_all statusRw6 () dev0 :=
  rhd_sample_all_discards_statuses statusRw5 statusRw6
    (fun _ _ _ _ => ⟨rfl, rfl⟩) () dev0

lemma setup_upto_succ {σ : Type} (rw : rhd_rw_t σ) (s : σ)
    (dev : rhd_device_t) (n : Nat) :
    rhd_setup_upto rw s dev (n + 1) =
      rhd_setup_step rw (rhd_setup_upto rw s dev n) n := by
  unfold rhd_setup_upto
  rw [List.range_succ, List.foldl_append]
  simp only [List.foldl_cons, List.foldl_nil]

lemma setup_step_dev {σ : Type} (rw : rhd_rw_t σ) (p : σ × rhd_device_t × Int)
    (n : Nat) :
    (rhd_setup_step rw p n).2.1 =
      (rhd_w rw p.1 p.2.1 n (RHD_SETUP_VALS.getD n 0)).2.1 := by
  unfold rhd_setup_step
  dsimp only
  split_ifs <;> rfl

lemma setup_step_ret {σ : Type} (rw : rhd_rw_t σ) (p : σ × rhd_device_t × Int)
    (n : Nat) :
    (rhd_setup_step rw p n).2.2 =
      if n < 2 then p.2.2
      else if rhd_get_val_from_rx
          (rhd_w rw p.1 p.2.1 n (RHD_SETUP_VALS.getD n 0)).2.1 ≠
          RHD_SETUP_VALS.getD (n - 2) 0 then -1
      else p.2.2 := by
  unfold rhd_setup_step
  dsimp only
  split_ifs <;> rfl

lemma setup_ret_iff {σ : Type} (rw : rhd_rw_t σ) (s : σ) (dev : rhd_device_t) :
    ∀ n, ((rhd_setup_upto rw s dev n).2.2 = 0 ∨
        (rhd_setup_upto rw s dev n).2.2 = -1) ∧
      ((rhd_setup_upto rw s dev n).2.2 = 0 ↔
        ∀ i, i < n → 2 ≤ i →
          rhd_get_val_from_rx (rhd_setup_upto rw s dev (i + 1)).2.1 =
            RHD_SETUP_VALS.getD (i - 2) 0) := by
  intro n
  induction n with
  | zero =>
    refine ⟨Or.inl rfl, ?_, fun _ => rfl⟩
    intro _ i hi
    omega
  | succ n ih =>
    rw [setup_upto_succ, setup_step_ret]
    by_cases hn2 : n < 2
    · rw [if_pos hn2]
      refine ⟨ih.1, ?_⟩
      rw [ih.2]
      constructor
      · intro hall i hi h2i
        rcases Nat.lt_succ_iff_lt_or_eq.mp hi with h | rfl
        · exact hall i h h2i
        · omega
      · intro hall i hi h2i
        exact hall i (by omega) h2i
    · rw [if_neg hn2]
      split
      · rename_i hneq
        refine ⟨Or.inr rfl, ?_, ?_⟩
        · intro h0
          exact absurd h0 (by omega)
        · intro hall
          exfalso
          apply hneq
          have hh := hall n (by omega) (by omega)
          rw [setup_upto_succ, setup_step_dev] at hh
          exact hh
      · rename_i heq
        refine ⟨ih.1, ?_⟩
        rw [ih.2]
        constructor
        · intro hall i hi h2i
          rcases Nat.lt_succ_iff_lt_or_eq.mp hi with hlt | rfl
          · exact hall i hlt h2i
          · rw [setup_upto_succ, setup_step_dev]
            exact not_ne_iff.mp heq
        · intro hall i hi h2i
          exact hall i (by omega) h2i

set_option maxRecDepth 20000 in
set_option maxHeartbeats 2000000 in
/-- C3: `rhd_setup` issues two throwaway `CHIP_ID` reads, then writes the
fixed 22-entry table to registers 0..21 in order (visible in the logged
trace as `0xFF00, 0xFF00` followed by the 22 write words, even when every
verification fails, so there is no early abort); after each write from
register 2 on it compares the echoed read-back against the value intended
for the write two exchanges earlier (the echo the chip's two-deep pipeline
delivers), latches `-1` on any mismatch, and returns 0 if and only if
every performed verification matched. -/
theorem rhd_setup_spec :
    (∀ (σ : Type) (rw : rhd_rw_t σ) (s : σ) (dev : rhd_device_t),
      ((rhd_setup rw s dev).2.2 = 0 ∨ (rhd_setup rw s dev).2.2 = -1) ∧
      ((rhd_setup rw s dev).2.2 = 0 ↔
        ∀ i, i < 22 → 2 ≤ i →
          rhd_get_val_from_rx (rhd_setup_upto rw s dev (i + 1)).2.1 =
            RHD_SETUP_VALS.getD (i - 2) 0)) ∧
    (rhd_setup (withLog nullRw) (((), [])) dev0).1.2 =
        [((0xFF00, 0), 1), ((0xFF00, 0), 1)] ++
          (List.range 22).map (fun i =>
            (((0x8000 + i * 256) ||| (RHD_SETUP_VALS.getD i 0 &&& 0xFF), 0), 1)) ∧
    (rhd_setup nullRw () dev0).2.2 = -1 :=
  by
  refine ⟨fun σ rw s dev => ?_, by decide, by decide⟩
  unfold rhd_setup
  exact setup_ret_iff rw s dev 22

set_option maxRecDepth 20000 in
set_option maxHeartbeats 2000000 in
/-- Witness for C3: under the two-deep pipelined echo transport every
read-back verification passes, and `rhd_setup` returns 0. -/
theorem rhd_setup_spec_witness :
    (rhd_setup pipeRw ((0, 0)) dev0).2.2 = 0 :=
  ((rhd_setup_spec.1 (Nat × Nat) pipeRw (0, 0) dev0).2).mpr (by decide)

lemma send_raw_tx1 {σ : Type} (rw : rhd_rw_t σ) (s : σ) (dev : rhd_device_t)
    (v : Nat) : (rhd_send_raw rw s dev v).2.1.tx1 = dev.tx1 := by
  unfold rhd_send_raw callRw
  dsimp only
  split <;> rfl

lemma send_raw_db {σ : Type} (rw : rhd_rw_t σ) (s : σ) (dev : rhd_device_t)
    (v : Nat) :
    (rhd_send_raw rw s dev v).2.1.double_bits = dev.double_bits := by
  unfold rhd_send_raw callRw
  dsimp only
  split <;> rfl

lemma send_raw_log {σ : Type} (rw : rhd_rw_t σ) (p1 : σ × List SpiCall)
    (dev : rhd_device_t) (v : Nat) :
    (rhd_send_raw (withLog rw) p1 dev v).1.2 =
      p1.2 ++ [((v % 65536, dev.tx1),
        if dev.double_bits then 2 else 1)] := by
  unfold rhd_send_raw callRw withLog
  dsimp only
  split <;> rename_i hdb <;> simp only [hdb, if_true, if_false]

lemma gs_tx1 (dev : rhd_device_t) (ch : Nat) :
    (rhd_get_samples_from_rx dev ch).tx1 = dev.tx1 := rfl

lemma gs_db (dev : rhd_device_t) (ch : Nat) :
    (rhd_get_samples_from_rx dev ch).double_bits = dev.double_bits := rfl

lemma sweep_log_inv {σ : Type} (rw : rhd_rw_t σ) (b : List Nat) (t1 : Nat) :
    ∀ (l : List Nat) (p : (σ × List SpiCall) × rhd_device_t),
      p.2.tx1 = t1 → p.2.double_bits = true →
      (∀ e ∈ p.1.2, e.1.2 = t1 ∧ e.2 = 2) →
      (l.foldl (rhd_sample_step (withLog rw) b) p).2.tx1 = t1 ∧
      (l.foldl (rhd_sample_step (withLog rw) b) p).2.double_bits = true ∧
      ∀ e ∈ (l.foldl (rhd_sample_step (withLog rw) b) p).1.2,
        e.1.2 = t1 ∧ e.2 = 2 := by
  intro l
  induction l with
  | nil => intro p h1 h2 h3; exact ⟨h1, h2, h3⟩
  | cons i t ih =>
    intro p h1 h2 h3
    rw [List.foldl_cons]
    apply ih
    · rw [rhd_sample_step, gs_tx1, send_raw_tx1]
      exact h1
    · rw [rhd_sample_step, gs_db, send_raw_db]
      exact h2
    · intro e he
      rw [rhd_sample_step] at he
      dsimp only at he
      rw [send_raw_log, h1, h2] at he
      rcases List.mem_append.mp he with hold | hnew
      · exact h3 e hold
      · simp only [List.mem_singleton] at hnew
        subst hnew
        simp

/-- C10: `rhd_send_raw` writes its argument into transmit word 0 only and
never touches transmit word 1, so in a doubled-mode `rhd_sample_all`
sweep every logged exchange transmits the session's pre-existing
`tx_buf[1]` as its second word (and exchanges 2 words). -/
theorem rhd_send_raw_frame_spec :
    (∀ (σ : Type) (rw : rhd_rw_t σ) (s : σ) (dev : rhd_device_t) (v : Nat),
      (rhd_send_raw rw s dev v).2.1.tx0 = v % 65536 ∧
      (rhd_send_raw rw s dev v).2.1.tx1 = dev.tx1) ∧
    (∀ (σ : Type) (rw : rhd_rw_t σ) (s : σ) (dev : rhd_device_t),
      dev.double_bits = true →
      ∀ e ∈ (rhd_sample_all (withLog rw) ((s, [])) dev).1.2,
        e.1.2 = dev.tx1 ∧ e.2 = 2) := by
  constructor
  · intro σ rw s dev v
    constructor
    · unfold rhd_send_raw callRw
      dsimp only
      split <;> rfl
    · exact send_raw_tx1 rw s dev v
  · intro σ rw s dev h
    unfold rhd_sample_all
    dsimp only
    generalize (if dev.double_bits = true then RHD_ADC_CH_CMD_DOUBLE
      else RHD_ADC_CH_CMD) = b
    refine (sweep_log_inv rw b dev.tx1 (List.range' 2 32) _ ?_ ?_ ?_).2.2
    · rw [send_raw_tx1]
    · rw [send_raw_db]
      exact h
    · intro e he
      rw [send_raw_log] at he
      simp only [List.nil_append, List.mem_singleton] at he
      subst he
      simp [h]

set_option maxRecDepth 20000 in
/-- Witness for C10: in the concrete doubled-mode sweep the priming
exchange's log entry carries channel 1's doubled command `0x03`, the
session's original second transmit word 0, and word count 2. -/
theorem rhd_send_raw_frame_spec_witness :
    (((3 : Nat), (0 : Nat)), (2 : Nat)).1.2 = dev0d.tx1 ∧
    (((3 : Nat), (0 : Nat)), (2 : Nat)).2 = 2 :=
  rhd_send_raw_frame_spec.2 Unit nullRw () dev0d rfl ((3, 0), 2) (by decide)
